import Mathlib

/-!
Verification of the sandoro Pomodoro timer engine (src/cli/src/timer.rs).

The engine is shallowly embedded: `Instant` timestamps and `Duration`
values are modelled as natural numbers of nanoseconds, supplied as
explicit inputs (`now`) to the operations that read the monotonic clock
(`with_sessions`, `tick`, `toggle_pause`).  `u32` fields are modelled as
`Nat`; the one place where u32 wrap-around is reachable in practice —
the unchecked subtraction inside `progress_percent` — is modelled
explicitly with `u32wrapSub` (wrapping semantics, as in release builds;
debug builds panic there, so an underflow is a defect either way).
The `f32` result of `progress_percent` is modelled as an exact rational;
at the boundary values the claims speak about (0, 100, and the guard
cases) the f32 computation is exact, so the rational model is faithful
there.
-/

set_option maxHeartbeats 1000000

namespace Sandoro

/-- Nanoseconds per second: the granularity of the drain loop
(`Duration::from_secs(1)`). -/
def nanosPerSec : Nat := 1000000000

/-- Wrapping u32 subtraction, as performed by `total - remaining` in
release builds when the subtraction underflows. -/
def u32wrapSub (a b : Nat) : Nat :=
  (((a : Int) - (b : Int)) % (4294967296 : Int)).toNat

/-- Timer states (`enum TimerState`). -/
inductive TimerState where
  | Work
  | ShortBreak
  | LongBreak
deriving DecidableEq

/-- The Pomodoro timer (`struct Timer`).  `last_tick` and `accumulated`
are nanosecond counts standing for `Instant` and `Duration`. -/
structure Timer where
  state : TimerState
  remaining_seconds : Nat
  elapsed_seconds : Nat
  is_paused : Bool
  work_duration : Nat
  short_break_duration : Nat
  long_break_duration : Nat
  sessions_until_long_break : Nat
  session_count : Nat
  last_tick : Nat
  accumulated : Nat
  is_flowtime : Bool
  flowtime_break_seconds : Nat
deriving DecidableEq

/-- `Timer::with_sessions`; `now` is the `Instant::now()` reading taken
in the constructor. -/
def Timer.with_sessions (work_minutes short_break_minutes long_break_minutes
    sessions_until_long_break now : Nat) : Timer :=
  { state := TimerState.Work
    remaining_seconds := work_minutes * 60
    elapsed_seconds := 0
    is_paused := true
    work_duration := work_minutes
    short_break_duration := short_break_minutes
    long_break_duration := long_break_minutes
    sessions_until_long_break := sessions_until_long_break
    session_count := 1
    last_tick := now
    accumulated := 0
    is_flowtime := false
    flowtime_break_seconds := 0 }

/-- `Timer::new` (delegates with the default of 4 sessions). -/
def Timer.new (work_minutes short_break_minutes long_break_minutes now : Nat) :
    Timer :=
  Timer.with_sessions work_minutes short_break_minutes long_break_minutes 4 now

/-- `Timer::set_flowtime`. -/
def Timer.set_flowtime (t : Timer) (b : Bool) : Timer :=
  let t1 := { t with is_flowtime := b }
  if b = true ∧ t1.state = TimerState.Work then
    { t1 with elapsed_seconds := 0 }
  else t1

/-- `Timer::duration_for_state`. -/
def Timer.duration_for_state (t : Timer) (s : TimerState) : Nat :=
  match s with
  | TimerState.Work => t.work_duration
  | TimerState.ShortBreak => t.short_break_duration
  | TimerState.LongBreak => t.long_break_duration

/-- `Timer::transition_to_next_state`. -/
def Timer.transition_to_next_state (t : Timer) : Timer :=
  let t1 :=
    match t.state with
    | TimerState.Work =>
        if t.sessions_until_long_break ≤ t.session_count then
          { t with state := TimerState.LongBreak }
        else
          { t with state := TimerState.ShortBreak }
    | TimerState.ShortBreak =>
        { t with state := TimerState.Work, session_count := t.session_count + 1 }
    | TimerState.LongBreak =>
        { t with state := TimerState.Work, session_count := 1 }
  let t2 :=
    if t1.is_flowtime = true ∧ t1.state = TimerState.Work then
      { t1 with elapsed_seconds := 0 }
    else
      { t1 with remaining_seconds := t1.duration_for_state t1.state * 60 }
  { t2 with is_paused := true, accumulated := 0 }

/-- One iteration body of the drain loop inside `Timer::tick`: apply one
simulated second (count up in flowtime work, otherwise a guarded
countdown decrement). -/
def Timer.applyOneSecond (t : Timer) : Timer :=
  if t.is_flowtime = true ∧ t.state = TimerState.Work then
    { t with elapsed_seconds := t.elapsed_seconds + 1 }
  else if 0 < t.remaining_seconds then
    { t with remaining_seconds := t.remaining_seconds - 1 }
  else t

/-- The drain loop of `Timer::tick`, written with explicit fuel so that
it is structurally recursive.  Each iteration subtracts one second from
the accumulator and applies one simulated second; the loop runs while
`accumulated >= 1s`, which is exactly `accumulated / nanosPerSec`
iterations. -/
def Timer.drainFuel : Nat → Timer → Timer
  | 0, t => t
  | f + 1, t =>
      if nanosPerSec ≤ t.accumulated then
        Timer.drainFuel f
          (Timer.applyOneSecond { t with accumulated := t.accumulated - nanosPerSec })
      else t

/-- The drain loop entered with exactly enough fuel to reach
`accumulated < 1s`. -/
def Timer.drainLoop (t : Timer) : Timer :=
  Timer.drainFuel (t.accumulated / nanosPerSec) t

/-- `Timer::tick`; `now` is the `Instant::now()` reading taken at the
start of the call. -/
def Timer.tick (t : Timer) (now : Nat) : Timer :=
  if t.is_paused = true then
    { t with last_tick := now }
  else
    let t1 := { t with last_tick := now,
                       accumulated := t.accumulated + (now - t.last_tick) }
    let t2 := t1.drainLoop
    if (t2.is_flowtime = false ∨ t2.state ≠ TimerState.Work) ∧
        t2.remaining_seconds = 0 then
      t2.transition_to_next_state
    else t2

/-- `Timer::toggle_pause`; `now` is the `Instant::now()` reading used
when resuming. -/
def Timer.toggle_pause (t : Timer) (now : Nat) : Timer :=
  let t1 := { t with is_paused := !t.is_paused }
  if t1.is_paused = false then { t1 with last_tick := now } else t1

/-- `Timer::reset`. -/
def Timer.reset (t : Timer) : Timer :=
  let t1 :=
    if t.is_flowtime = true ∧ t.state = TimerState.Work then
      { t with elapsed_seconds := 0 }
    else
      { t with remaining_seconds := t.duration_for_state t.state * 60 }
  { t1 with is_paused := true, accumulated := 0 }

/-- `Timer::end_work`. -/
def Timer.end_work (t : Timer) : Timer :=
  if ¬(t.is_flowtime = true ∧ t.state = TimerState.Work) then t
  else
    let calculated_break_seconds := max 60 (t.elapsed_seconds / 5)
    { t with flowtime_break_seconds := calculated_break_seconds,
             state := TimerState.ShortBreak,
             remaining_seconds := calculated_break_seconds,
             is_paused := true,
             accumulated := 0 }

/-- `Timer::skip`. -/
def Timer.skip (t : Timer) : Timer :=
  if t.is_flowtime = true ∧ t.state = TimerState.Work then t.end_work
  else t.transition_to_next_state

/-- `Timer::progress_percent`, with the f32 result modelled as an exact
rational and the u32 subtraction modelled with wrapping semantics. -/
def Timer.progress_percent (t : Timer) : ℚ :=
  if t.is_flowtime = true ∧ t.state = TimerState.Work then 0
  else
    let total := t.duration_for_state t.state * 60
    if total = 0 then 0
    else ((u32wrapSub total t.remaining_seconds : ℚ) / (total : ℚ)) * 100

/-- `Timer::full_reset`. -/
def Timer.full_reset (t : Timer) : Timer :=
  { t with state := TimerState.Work,
           remaining_seconds := t.work_duration * 60,
           elapsed_seconds := 0,
           is_paused := true,
           accumulated := 0,
           session_count := 1,
           flowtime_break_seconds := 0 }

/-- `Timer::add_time`. -/
def Timer.add_time (t : Timer) (seconds : Nat) : Timer :=
  { t with remaining_seconds := t.remaining_seconds + seconds }

/-- Iterated `tick`: fold the timer through a list of clock readings. -/
def Timer.tickSeq (t : Timer) : List Nat → Timer
  | [] => t
  | n :: ns => Timer.tickSeq (t.tick n) ns

/-- Number of whole seconds the drain loop of a `tick` at clock reading
`now` would remove from the accumulator (0 while paused). -/
def Timer.secondsDrained (t : Timer) (now : Nat) : Nat :=
  if t.is_paused = true then 0
  else (t.accumulated + (now - t.last_tick)) / nanosPerSec

/-- Number of simulated seconds a `tick` at clock reading `now` actually
applies: count-up increments in flowtime Work, otherwise countdown
decrements, which stop once remaining_seconds reaches 0. -/
def Timer.appliedSeconds (t : Timer) (now : Nat) : Nat :=
  if t.is_paused = true then 0
  else if t.is_flowtime = true ∧ t.state = TimerState.Work then
    (t.accumulated + (now - t.last_tick)) / nanosPerSec
  else
    min ((t.accumulated + (now - t.last_tick)) / nanosPerSec) t.remaining_seconds

/-- Total simulated seconds applied over a sequence of `tick` calls. -/
def Timer.totalApplied (t : Timer) : List Nat → Nat
  | [] => 0
  | n :: ns => t.appliedSeconds n + Timer.totalApplied (t.tick n) ns

/-- The run predicate of the drift-independence property: the timer is
unpaused when every `tick` of the sequence fires and is still unpaused
afterwards (no automatic transition pauses the engine mid-run). -/
def Timer.runUnpaused (t : Timer) : List Nat → Bool
  | [] => !t.is_paused
  | n :: ns => !t.is_paused && Timer.runUnpaused (t.tick n) ns

/-- States reachable from construction through the public operations. -/
inductive Reachable : Timer → Prop where
  | init (w s l n now : Nat) : Reachable (Timer.with_sessions w s l n now)
  | tick {t : Timer} (now : Nat) : Reachable t → Reachable (t.tick now)
  | toggle_pause {t : Timer} (now : Nat) : Reachable t → Reachable (t.toggle_pause now)
  | reset {t : Timer} : Reachable t → Reachable t.reset
  | full_reset {t : Timer} : Reachable t → Reachable t.full_reset
  | skip {t : Timer} : Reachable t → Reachable t.skip
  | end_work {t : Timer} : Reachable t → Reachable t.end_work
  | add_time {t : Timer} (s : Nat) : Reachable t → Reachable (t.add_time s)
  | set_flowtime {t : Timer} (b : Bool) : Reachable t → Reachable (t.set_flowtime b)

/-- States reachable from a construction with a positive cycle length
when flowtime is never enabled (`set_flowtime` only ever passes false). -/
inductive ReachableClassic : Timer → Prop where
  | init (w s l n now : Nat) (hn : 1 ≤ n) :
      ReachableClassic (Timer.with_sessions w s l n now)
  | tick {t : Timer} (now : Nat) : ReachableClassic t → ReachableClassic (t.tick now)
  | toggle_pause {t : Timer} (now : Nat) :
      ReachableClassic t → ReachableClassic (t.toggle_pause now)
  | reset {t : Timer} : ReachableClassic t → ReachableClassic t.reset
  | full_reset {t : Timer} : ReachableClassic t → ReachableClassic t.full_reset
  | skip {t : Timer} : ReachableClassic t → ReachableClassic t.skip
  | end_work {t : Timer} : ReachableClassic t → ReachableClassic t.end_work
  | add_time {t : Timer} (s : Nat) : ReachableClassic t → ReachableClassic (t.add_time s)
  | set_flowtime_off {t : Timer} :
      ReachableClassic t → ReachableClassic (t.set_flowtime false)

/-- The inductive invariant behind the session-count bounds: classic
mode, positive cycle length, session count within bounds and strictly
below the cycle length while in a short break. -/
def InvC4 (t : Timer) : Prop :=
  t.is_flowtime = false ∧
  1 ≤ t.sessions_until_long_break ∧
  1 ≤ t.session_count ∧
  t.session_count ≤ t.sessions_until_long_break ∧
  (t.state = TimerState.ShortBreak →
    t.session_count < t.sessions_until_long_break)

/-- C6: from any state, full_reset produces Work, session 1, paused, the
work countdown recomputed, elapsed and flowtime break seconds zeroed and
the drift accumulator zeroed, and applying full_reset twice gives the
same state as applying it once. -/
theorem full_reset_spec_idem (t : Timer) :
    t.full_reset.state = TimerState.Work ∧
    t.full_reset.session_count = 1 ∧
    t.full_reset.is_paused = true ∧
    t.full_reset.remaining_seconds = t.work_duration * 60 ∧
    t.full_reset.elapsed_seconds = 0 ∧
    t.full_reset.flowtime_break_seconds = 0 ∧
    t.full_reset.accumulated = 0 ∧
    t.full_reset.full_reset = t.full_reset :=
  ⟨rfl, rfl, rfl, rfl, rfl, rfl, rfl, rfl⟩

/-- C8: add_time adds its argument to remaining_seconds unconditionally
and leaves phase, pause flag, session count, elapsed count, mode flag and
flowtime break length unchanged. -/
theorem add_time_spec (t : Timer) (s : Nat) :
    (t.add_time s).remaining_seconds = t.remaining_seconds + s ∧
    (t.add_time s).state = t.state ∧
    (t.add_time s).is_paused = t.is_paused ∧
    (t.add_time s).session_count = t.session_count ∧
    (t.add_time s).elapsed_seconds = t.elapsed_seconds ∧
    (t.add_time s).is_flowtime = t.is_flowtime ∧
    (t.add_time s).flowtime_break_seconds = t.flowtime_break_seconds :=
  ⟨rfl, rfl, rfl, rfl, rfl, rfl, rfl⟩

/-- C3: end_work is a no-op unless the timer is in flowtime Work; when it
applies it sets flowtime_break_seconds and remaining_seconds to
max 60 (elapsed_seconds / 5), moves to ShortBreak, pauses, and zeroes the
drift accumulator. -/
theorem end_work_spec (t : Timer) :
    (¬(t.is_flowtime = true ∧ t.state = TimerState.Work) → t.end_work = t) ∧
    (t.is_flowtime = true ∧ t.state = TimerState.Work →
      t.end_work.flowtime_break_seconds = max 60 (t.elapsed_seconds / 5) ∧
      t.end_work.remaining_seconds = max 60 (t.elapsed_seconds / 5) ∧
      t.end_work.state = TimerState.ShortBreak ∧
      t.end_work.is_paused = true ∧
      t.end_work.accumulated = 0) := by
  constructor
  · intro h
    simp [Timer.end_work, h]
  · intro h
    simp [Timer.end_work, h]

/-- Closed instances of end_work_spec: the no-op branch on a fresh classic
timer, and the flowtime branch on a flowtime timer with 613 elapsed
seconds, earning a 122-second break. -/
theorem end_work_spec_witness :
    (Timer.with_sessions 25 5 15 4 0).end_work = Timer.with_sessions 25 5 15 4 0 ∧
    (((Timer.with_sessions 25 5 15 4 0).set_flowtime true).add_time 0).end_work.remaining_seconds =
      max 60 ((((Timer.with_sessions 25 5 15 4 0).set_flowtime true).add_time 0).elapsed_seconds / 5) ∧
    (((Timer.with_sessions 25 5 15 4 0).set_flowtime true).add_time 0).end_work.state =
      TimerState.ShortBreak := by
  have h1 := (end_work_spec (Timer.with_sessions 25 5 15 4 0)).1 (by decide)
  have h2 := (end_work_spec (((Timer.with_sessions 25 5 15 4 0).set_flowtime true).add_time 0)).2
    (by decide)
  exact ⟨h1, h2.2.1, h2.2.2.1⟩

/-- C1: skip outside flowtime Work applies the deterministic transition
table (Work goes to LongBreak when session_count has reached
sessions_until_long_break and to ShortBreak otherwise, with
session_count unchanged; ShortBreak goes to Work incrementing
session_count; LongBreak goes to Work resetting session_count to 1), and
after the transition the new countdown is duration_for(new state) * 60
(or elapsed_seconds is zeroed instead for flowtime Work), the timer is
paused and the drift accumulator is zeroed. -/
theorem classic_skip_transition_table (t : Timer)
    (h : ¬(t.is_flowtime = true ∧ t.state = TimerState.Work)) :
    (t.state = TimerState.Work →
      (t.sessions_until_long_break ≤ t.session_count →
        t.skip.state = TimerState.LongBreak) ∧
      (t.session_count < t.sessions_until_long_break →
        t.skip.state = TimerState.ShortBreak) ∧
      t.skip.session_count = t.session_count) ∧
    (t.state = TimerState.ShortBreak →
      t.skip.state = TimerState.Work ∧
      t.skip.session_count = t.session_count + 1) ∧
    (t.state = TimerState.LongBreak →
      t.skip.state = TimerState.Work ∧
      t.skip.session_count = 1) ∧
    (t.skip.is_flowtime = true ∧ t.skip.state = TimerState.Work →
      t.skip.elapsed_seconds = 0) ∧
    (¬(t.skip.is_flowtime = true ∧ t.skip.state = TimerState.Work) →
      t.skip.remaining_seconds = t.skip.duration_for_state t.skip.state * 60) ∧
    t.skip.is_paused = true ∧
    t.skip.accumulated = 0 := by
  have hs : t.skip = t.transition_to_next_state := by
    simp [Timer.skip, h]
  rw [hs]
  rcases ht : t.state with _ | _ | _ <;>
    simp_all [Timer.transition_to_next_state, Timer.duration_for_state] <;>
    split_ifs <;>
    simp_all [Timer.duration_for_state]

/-- Closed instance of classic_skip_transition_table on a fresh classic
timer with cycle length 2: Work in session 1 skips to ShortBreak with a
120-second countdown, paused. -/
theorem classic_skip_transition_table_witness :
    (Timer.with_sessions 25 2 15 2 0).skip.state = TimerState.ShortBreak ∧
    (Timer.with_sessions 25 2 15 2 0).skip.session_count = 1 ∧
    (Timer.with_sessions 25 2 15 2 0).skip.remaining_seconds = 120 ∧
    (Timer.with_sessions 25 2 15 2 0).skip.is_paused = true := by
  have h := classic_skip_transition_table (Timer.with_sessions 25 2 15 2 0) (by decide)
  refine ⟨(h.1 rfl).2.1 (by decide), (h.1 rfl).2.2, ?_, h.2.2.2.2.2.1⟩
  have hr := h.2.2.2.2.1 (by decide)
  simpa using hr

/-- Closed form of the drain loop in flowtime Work: the accumulator is
reduced modulo one second and every whole second becomes a count-up
increment. -/
theorem drainFuel_flowtime_work (f : Nat) (t : Timer)
    (hfw : t.is_flowtime = true ∧ t.state = TimerState.Work)
    (h : t.accumulated / nanosPerSec ≤ f) :
    Timer.drainFuel f t =
      { t with accumulated := t.accumulated % nanosPerSec,
               elapsed_seconds := t.elapsed_seconds + t.accumulated / nanosPerSec } := by
  induction f generalizing t with
  | zero =>
    have h0 : t.accumulated / nanosPerSec = 0 := Nat.le_zero.mp h
    have hlt : t.accumulated < nanosPerSec :=
      (Nat.div_eq_zero_iff (by decide)).mp h0
    obtain ⟨st, rem, el, p, wd, sbd, lbd, n, c, lt, acc, fl, fb⟩ := t
    simp only [Timer.drainFuel]
    simp [Nat.mod_eq_of_lt hlt, Nat.div_eq_of_lt hlt]
  | succ f ih =>
    by_cases hge : nanosPerSec ≤ t.accumulated
    · have hstep : Timer.drainFuel (f + 1) t =
          Timer.drainFuel f
            (Timer.applyOneSecond { t with accumulated := t.accumulated - nanosPerSec }) := by
        rw [Timer.drainFuel, if_pos hge]
      have ha : Timer.applyOneSecond { t with accumulated := t.accumulated - nanosPerSec } =
          { t with accumulated := t.accumulated - nanosPerSec,
                   elapsed_seconds := t.elapsed_seconds + 1 } := by
        simp [Timer.applyOneSecond, hfw.1, hfw.2]
      have hle : (t.accumulated - nanosPerSec) / nanosPerSec ≤ f := by
        simp only [nanosPerSec] at h hge ⊢
        omega
      rw [hstep, ha,
        ih { t with accumulated := t.accumulated - nanosPerSec,
                    elapsed_seconds := t.elapsed_seconds + 1 } ⟨hfw.1, hfw.2⟩ hle]
      obtain ⟨st, rem, el, p, wd, sbd, lbd, n, c, lt, acc, fl, fb⟩ := t
      simp only [Timer.mk.injEq, and_true, true_and]
      simp only [nanosPerSec] at hge ⊢
      constructor
      · omega
      · omega
    · have hlt : t.accumulated < nanosPerSec := Nat.lt_of_not_le hge
      have hstep : Timer.drainFuel (f + 1) t = t := by
        rw [Timer.drainFuel, if_neg hge]
      obtain ⟨st, rem, el, p, wd, sbd, lbd, n, c, lt, acc, fl, fb⟩ := t
      rw [hstep]
      simp [Nat.mod_eq_of_lt hlt, Nat.div_eq_of_lt hlt]

/-- Closed form of the drain loop outside flowtime Work: the accumulator
is reduced modulo one second and every whole second becomes a saturating
countdown decrement. -/
theorem drainFuel_countdown (f : Nat) (t : Timer)
    (hfw : ¬(t.is_flowtime = true ∧ t.state = TimerState.Work))
    (h : t.accumulated / nanosPerSec ≤ f) :
    Timer.drainFuel f t =
      { t with accumulated := t.accumulated % nanosPerSec,
               remaining_seconds := t.remaining_seconds - t.accumulated / nanosPerSec } := by
  induction f generalizing t with
  | zero =>
    have h0 : t.accumulated / nanosPerSec = 0 := Nat.le_zero.mp h
    have hlt : t.accumulated < nanosPerSec :=
      (Nat.div_eq_zero_iff (by decide)).mp h0
    obtain ⟨st, rem, el, p, wd, sbd, lbd, n, c, lt, acc, fl, fb⟩ := t
    simp only [Timer.drainFuel]
    simp [Nat.mod_eq_of_lt hlt, Nat.div_eq_of_lt hlt]
  | succ f ih =>
    by_cases hge : nanosPerSec ≤ t.accumulated
    · have hstep : Timer.drainFuel (f + 1) t =
          Timer.drainFuel f
            (Timer.applyOneSecond { t with accumulated := t.accumulated - nanosPerSec }) := by
        rw [Timer.drainFuel, if_pos hge]
      have ha : Timer.applyOneSecond { t with accumulated := t.accumulated - nanosPerSec } =
          { t with accumulated := t.accumulated - nanosPerSec,
                   remaining_seconds := t.remaining_seconds - 1 } := by
        by_cases hr : 0 < t.remaining_seconds
        · simp [Timer.applyOneSecond, hfw, hr]
        · have hr0 : t.remaining_seconds = 0 := by omega
          simp [Timer.applyOneSecond, hfw, hr0]
      have hle : (t.accumulated - nanosPerSec) / nanosPerSec ≤ f := by
        simp only [nanosPerSec] at h hge ⊢
        omega
      rw [hstep, ha,
        ih { t with accumulated := t.accumulated - nanosPerSec,
                    remaining_seconds := t.remaining_seconds - 1 } hfw hle]
      obtain ⟨st, rem, el, p, wd, sbd, lbd, n, c, lt, acc, fl, fb⟩ := t
      simp only [Timer.mk.injEq, and_true, true_and]
      simp only [nanosPerSec] at hge ⊢
      constructor
      · omega
      · omega
    · have hlt : t.accumulated < nanosPerSec := Nat.lt_of_not_le hge
      have hstep : Timer.drainFuel (f + 1) t = t := by
        rw [Timer.drainFuel, if_neg hge]
      obtain ⟨st, rem, el, p, wd, sbd, lbd, n, c, lt, acc, fl, fb⟩ := t
      rw [hstep]
      simp [Nat.mod_eq_of_lt hlt, Nat.div_eq_of_lt hlt]

/-- Closed form of the drain loop. -/
theorem drainLoop_eq (t : Timer) :
    t.drainLoop =
      if t.is_flowtime = true ∧ t.state = TimerState.Work then
        { t with accumulated := t.accumulated % nanosPerSec,
                 elapsed_seconds := t.elapsed_seconds + t.accumulated / nanosPerSec }
      else
        { t with accumulated := t.accumulated % nanosPerSec,
                 remaining_seconds := t.remaining_seconds - t.accumulated / nanosPerSec } := by
  by_cases hfw : t.is_flowtime = true ∧ t.state = TimerState.Work
  · rw [Timer.drainLoop, drainFuel_flowtime_work _ _ hfw le_rfl, if_pos hfw]
  · rw [Timer.drainLoop, drainFuel_countdown _ _ hfw le_rfl, if_neg hfw]

/-- A tick on a paused timer only refreshes the last-tick timestamp. -/
theorem tick_paused (t : Timer) (h : t.is_paused = true) (now : Nat) :
    t.tick now = { t with last_tick := now } := by
  simp [Timer.tick, h]

/-- Any number of ticks on a paused timer only refreshes the last-tick
timestamp. -/
theorem tickSeq_paused (ns : List Nat) : ∀ t : Timer, t.is_paused = true →
    ∃ l, t.tickSeq ns = { t with last_tick := l } := by
  induction ns with
  | nil =>
    intro t h
    exact ⟨t.last_tick, rfl⟩
  | cons n ns ih =>
    intro t h
    rw [Timer.tickSeq, tick_paused t h n]
    obtain ⟨l, hl⟩ := ih { t with last_tick := n } h
    exact ⟨l, hl⟩

/-- C5: ticking any number of times while paused leaves every field other
than the last-tick timestamp unchanged, and after resuming through
toggle_pause the next tick only drains the accumulator plus the time
since the resume instant, never the paused interval. -/
theorem paused_tick_frame (t : Timer) (h : t.is_paused = true)
    (ns : List Nat) (b c : Nat) :
    (t.tickSeq ns).state = t.state ∧
    (t.tickSeq ns).remaining_seconds = t.remaining_seconds ∧
    (t.tickSeq ns).elapsed_seconds = t.elapsed_seconds ∧
    (t.tickSeq ns).accumulated = t.accumulated ∧
    (t.tickSeq ns).is_paused = true ∧
    (t.tickSeq ns).session_count = t.session_count ∧
    (t.tickSeq ns).flowtime_break_seconds = t.flowtime_break_seconds ∧
    (t.tickSeq ns).is_flowtime = t.is_flowtime ∧
    ((t.tickSeq ns).toggle_pause b).is_paused = false ∧
    ((t.tickSeq ns).toggle_pause b).last_tick = b ∧
    ((t.tickSeq ns).toggle_pause b).secondsDrained c =
      (t.accumulated + (c - b)) / nanosPerSec := by
  obtain ⟨l, hl⟩ := tickSeq_paused ns t h
  rw [hl]
  refine ⟨rfl, rfl, rfl, rfl, h, rfl, rfl, rfl, ?_, ?_, ?_⟩ <;>
    simp [Timer.toggle_pause, Timer.secondsDrained, h]

/-- Closed instance of paused_tick_frame: a fresh paused timer ticked
twice keeps its countdown, and one second elapsing after the resume
instant drains exactly one second. -/
theorem paused_tick_frame_witness :
    ((Timer.with_sessions 25 5 15 4 0).tickSeq [7, 9]).remaining_seconds = 1500 ∧
    ((Timer.with_sessions 25 5 15 4 0).tickSeq [7, 9]).is_paused = true ∧
    (((Timer.with_sessions 25 5 15 4 0).tickSeq [7, 9]).toggle_pause 10).secondsDrained
      1000000010 = 1 := by
  obtain ⟨h1, h2, h3, h4, h5, h6, h7, h8, h9, h10, h11⟩ :=
    paused_tick_frame (Timer.with_sessions 25 5 15 4 0) rfl [7, 9] 10 1000000010
  refine ⟨?_, h5, ?_⟩
  · rw [h2]
    decide
  · rw [h11]
    decide

/-- A run that satisfies runUnpaused starts unpaused. -/
theorem runUnpaused_head (t : Timer) (ns : List Nat)
    (h : t.runUnpaused ns = true) : t.is_paused = false := by
  cases ns with
  | nil => simpa [Timer.runUnpaused] using h
  | cons n ns =>
    rw [Timer.runUnpaused, Bool.and_eq_true] at h
    simpa using h.1

/-- The transition always lands in a paused state. -/
theorem transition_is_paused (t : Timer) :
    t.transition_to_next_state.is_paused = true := by
  obtain ⟨st, rem, el, p, wd, sbd, lbd, n, c, lt, acc, fl, fb⟩ := t
  cases st <;> simp [Timer.transition_to_next_state]

/-- Characterization of an unpaused tick: drain the accumulator into the
authoritative counter, then transition exactly when the countdown is
authoritative and has reached zero. -/
theorem tick_unpaused_eq (t : Timer) (now : Nat) (h : t.is_paused = false) :
    t.tick now =
      if t.is_flowtime = true ∧ t.state = TimerState.Work then
        { t with last_tick := now,
                 accumulated := (t.accumulated + (now - t.last_tick)) % nanosPerSec,
                 elapsed_seconds := t.elapsed_seconds +
                   (t.accumulated + (now - t.last_tick)) / nanosPerSec }
      else if t.remaining_seconds -
          (t.accumulated + (now - t.last_tick)) / nanosPerSec = 0 then
        Timer.transition_to_next_state
          { t with last_tick := now,
                   accumulated := (t.accumulated + (now - t.last_tick)) % nanosPerSec,
                   remaining_seconds := 0 }
      else
        { t with last_tick := now,
                 accumulated := (t.accumulated + (now - t.last_tick)) % nanosPerSec,
                 remaining_seconds := t.remaining_seconds -
                   (t.accumulated + (now - t.last_tick)) / nanosPerSec } := by
  obtain ⟨st, rem, el, p, wd, sbd, lbd, n, c, lt, acc, fl, fb⟩ := t
  simp only at h
  subst h
  cases fl <;> cases st <;>
    simp only [Timer.tick, drainLoop_eq] <;>
    split_ifs <;>
    simp_all

/-- A tick that starts and ends unpaused carries the sub-second remainder
into the accumulator, stamps the clock reading, does not transition, and
applies exactly the whole seconds of accumulated wall-clock time. -/
theorem tick_stay (t : Timer) (now : Nat)
    (h1 : t.is_paused = false) (h2 : (t.tick now).is_paused = false) :
    (t.tick now).accumulated =
      (t.accumulated + (now - t.last_tick)) % nanosPerSec ∧
    (t.tick now).last_tick = now ∧
    (t.tick now).state = t.state ∧
    (t.tick now).is_flowtime = t.is_flowtime ∧
    t.appliedSeconds now = (t.accumulated + (now - t.last_tick)) / nanosPerSec := by
  have hnp : ¬t.is_paused = true := by simp [h1]
  by_cases hfw : t.is_flowtime = true ∧ t.state = TimerState.Work
  · rw [tick_unpaused_eq t now h1, if_pos hfw]
    refine ⟨rfl, rfl, rfl, rfl, ?_⟩
    simp [Timer.appliedSeconds, h1, hfw]
  · by_cases hz : t.remaining_seconds -
        (t.accumulated + (now - t.last_tick)) / nanosPerSec = 0
    · exfalso
      rw [tick_unpaused_eq t now h1, if_neg hfw, if_pos hz,
        transition_is_paused] at h2
      exact Bool.true_eq_false.mp h2
    · rw [tick_unpaused_eq t now h1, if_neg hfw, if_neg hz]
      refine ⟨rfl, rfl, rfl, rfl, ?_⟩
      rw [Timer.appliedSeconds, if_neg hnp, if_neg hfw]
      omega

/-- appliedSeconds is exactly the number of counter mutations a
non-transitioning tick performs: the count-up gain plus the countdown
loss. -/
theorem appliedSeconds_delta (t : Timer) (now : Nat)
    (h1 : t.is_paused = false) (h2 : (t.tick now).is_paused = false) :
    (t.tick now).elapsed_seconds + t.remaining_seconds =
      t.elapsed_seconds + t.appliedSeconds now +
        (t.tick now).remaining_seconds := by
  have hnp : ¬t.is_paused = true := by simp [h1]
  by_cases hfw : t.is_flowtime = true ∧ t.state = TimerState.Work
  · rw [tick_unpaused_eq t now h1, if_pos hfw]
    simp [Timer.appliedSeconds, hnp, hfw]
  · by_cases hz : t.remaining_seconds -
        (t.accumulated + (now - t.last_tick)) / nanosPerSec = 0
    · exfalso
      rw [tick_unpaused_eq t now h1, if_neg hfw, if_pos hz,
        transition_is_paused] at h2
      exact Bool.true_eq_false.mp h2
    · rw [tick_unpaused_eq t now h1, if_neg hfw, if_neg hz]
      rw [Timer.appliedSeconds, if_neg hnp, if_neg hfw]
      dsimp only
      omega

/-- The last element of a monotone chain dominates its head. -/
theorem chain_le_getLastD (n : Nat) (ns : List Nat)
    (h : List.Chain (fun a b => a ≤ b) n ns) : n ≤ ns.getLastD n := by
  induction ns generalizing n with
  | nil => simp [List.getLastD]
  | cons m ms ih =>
    rw [List.getLastD_cons]
    cases h with
    | cons hnm hc => exact hnm.trans (ih m hc)

/-- Generalized drift independence: starting below one second of
accumulated remainder, a run that never pauses applies exactly the whole
seconds of the spanned wall-clock interval plus the initial remainder. -/
theorem totalApplied_run (ns : List Nat) : ∀ t : Timer,
    t.accumulated < nanosPerSec →
    t.runUnpaused ns = true →
    List.Chain (fun a b => a ≤ b) t.last_tick ns →
    t.totalApplied ns =
      (t.accumulated + (ns.getLastD t.last_tick - t.last_tick)) / nanosPerSec := by
  induction ns with
  | nil =>
    intro t hacc hrun hch
    rw [Timer.totalApplied]
    simp [List.getLastD, Nat.div_eq_of_lt hacc]
  | cons n ns ih =>
    intro t hacc hrun hch
    rw [Timer.runUnpaused, Bool.and_eq_true] at hrun
    have h1 : t.is_paused = false := by simpa using hrun.1
    have h2 : (t.tick n).is_paused = false := runUnpaused_head _ _ hrun.2
    obtain ⟨hacc', hlast, _, _, happ⟩ := tick_stay t n h1 h2
    cases hch with
    | cons hle hch' =>
    have ihr := ih (t.tick n)
      (by rw [hacc']; exact Nat.mod_lt _ (by decide))
      hrun.2
      (by rw [hlast]; exact hch')
    rw [Timer.totalApplied, happ, ihr, hacc', hlast, List.getLastD_cons]
    have hle2 : n ≤ ns.getLastD n := chain_le_getLastD n ns hch'
    simp only [nanosPerSec] at *
    omega

/-- C2: over any sequence of tick calls with monotone clock readings that
never leaves the timer paused, starting from a zero accumulator, the
total number of simulated whole seconds applied equals the floor of the
spanned wall-clock duration in seconds, however irregular the calls. -/
theorem tick_total_seconds_floor (t : Timer) (ns : List Nat)
    (hacc : t.accumulated = 0)
    (hrun : t.runUnpaused ns = true)
    (hch : List.Chain (fun a b => a ≤ b) t.last_tick ns) :
    t.totalApplied ns = (ns.getLastD t.last_tick - t.last_tick) / nanosPerSec := by
  have h := totalApplied_run ns t (by rw [hacc]; decide) hrun hch
  rw [hacc] at h
  simpa using h

/-- Closed instance of tick_total_seconds_floor: two irregular ticks
spanning 1.5 seconds of wall clock apply exactly one simulated second. -/
theorem tick_total_seconds_floor_witness :
    ((Timer.with_sessions 1 1 1 4 0).toggle_pause 0).totalApplied
      [500000000, 1500000000] =
      (([500000000, 1500000000] : List Nat).getLastD
        ((Timer.with_sessions 1 1 1 4 0).toggle_pause 0).last_tick -
        ((Timer.with_sessions 1 1 1 4 0).toggle_pause 0).last_tick) / nanosPerSec :=
  tick_total_seconds_floor ((Timer.with_sessions 1 1 1 4 0).toggle_pause 0)
    [500000000, 1500000000] rfl (by decide)
    (List.Chain.cons (by decide) (List.Chain.cons (by decide) List.Chain.nil))

/-- The transition always zeroes the drift accumulator. -/
theorem transition_accumulated (t : Timer) :
    t.transition_to_next_state.accumulated = 0 := by
  obtain ⟨st, rem, el, p, wd, sbd, lbd, n, c, lt, acc, fl, fb⟩ := t
  cases st <;> simp [Timer.transition_to_next_state]

/-- The transition always changes the phase. -/
theorem transition_state_ne (t : Timer) :
    t.transition_to_next_state.state ≠ t.state := by
  obtain ⟨st, rem, el, p, wd, sbd, lbd, n, c, lt, acc, fl, fb⟩ := t
  cases st <;>
    simp [Timer.transition_to_next_state] <;>
    split_ifs <;>
    simp

/-- After a transition the new counter is re-armed: elapsed_seconds is
zeroed for flowtime Work, otherwise the countdown is the configured
duration of the new phase. -/
theorem transition_counters (t : Timer) :
    (t.transition_to_next_state.is_flowtime = true ∧
        t.transition_to_next_state.state = TimerState.Work →
      t.transition_to_next_state.elapsed_seconds = 0) ∧
    (¬(t.transition_to_next_state.is_flowtime = true ∧
        t.transition_to_next_state.state = TimerState.Work) →
      t.transition_to_next_state.remaining_seconds =
        t.transition_to_next_state.duration_for_state
          t.transition_to_next_state.state * 60) := by
  obtain ⟨st, rem, el, p, wd, sbd, lbd, n, c, lt, acc, fl, fb⟩ := t
  cases st <;> cases fl <;>
    simp [Timer.transition_to_next_state, Timer.duration_for_state] <;>
    split_ifs <;>
    simp_all [Timer.duration_for_state]

/-- Two timers that agree on everything except the last-tick timestamp
and the accumulator have transitions that agree except for the preserved
last-tick timestamp. -/
theorem transition_except (s1 s2 : Timer)
    (hst : s1.state = s2.state)
    (hrem : s1.remaining_seconds = s2.remaining_seconds)
    (hel : s1.elapsed_seconds = s2.elapsed_seconds)
    (hp : s1.is_paused = s2.is_paused)
    (hwd : s1.work_duration = s2.work_duration)
    (hsd : s1.short_break_duration = s2.short_break_duration)
    (hld : s1.long_break_duration = s2.long_break_duration)
    (hn : s1.sessions_until_long_break = s2.sessions_until_long_break)
    (hsc : s1.session_count = s2.session_count)
    (hfl : s1.is_flowtime = s2.is_flowtime)
    (hfb : s1.flowtime_break_seconds = s2.flowtime_break_seconds) :
    s1.transition_to_next_state =
      { s2.transition_to_next_state with last_tick := s1.last_tick } := by
  obtain ⟨st1, rem1, el1, p1, wd1, sbd1, lbd1, n1, c1, lt1, acc1, fl1, fb1⟩ := s1
  obtain ⟨st2, rem2, el2, p2, wd2, sbd2, lbd2, n2, c2, lt2, acc2, fl2, fb2⟩ := s2
  simp only at hst hrem hel hp hwd hsd hld hn hsc hfl hfb
  subst hst hrem hel hp hwd hsd hld hn hsc hfl hfb
  cases st1 <;>
    simp only [Timer.transition_to_next_state] <;>
    split_ifs <;>
    simp_all [Timer.duration_for_state]

/-- C10: a single unpaused tick outside flowtime Work performs at most
one automatic transition: once the drained whole seconds cover
remaining_seconds, any further elapsed time is discarded — two clock
readings that both overdrain produce the same state up to the last-tick
timestamp — the phase changes exactly once, the engine lands paused with
a zeroed accumulator, and the new counter is the full configured
duration of the new phase (or a zeroed count-up for flowtime Work), with
no excess carried over. -/
theorem tick_single_transition (t : Timer) (now1 now2 : Nat)
    (h1 : t.is_paused = false)
    (hw : ¬(t.is_flowtime = true ∧ t.state = TimerState.Work))
    (hd1 : t.remaining_seconds ≤
      (t.accumulated + (now1 - t.last_tick)) / nanosPerSec)
    (hd2 : t.remaining_seconds ≤
      (t.accumulated + (now2 - t.last_tick)) / nanosPerSec) :
    t.tick now1 = { t.tick now2 with last_tick := now1 } ∧
    (t.tick now1).is_paused = true ∧
    (t.tick now1).accumulated = 0 ∧
    (t.tick now1).state ≠ t.state ∧
    ((t.tick now1).is_flowtime = true ∧ (t.tick now1).state = TimerState.Work →
      (t.tick now1).elapsed_seconds = 0) ∧
    (¬((t.tick now1).is_flowtime = true ∧
        (t.tick now1).state = TimerState.Work) →
      (t.tick now1).remaining_seconds =
        (t.tick now1).duration_for_state (t.tick now1).state * 60) := by
  have hz1 : t.remaining_seconds -
      (t.accumulated + (now1 - t.last_tick)) / nanosPerSec = 0 :=
    Nat.sub_eq_zero_of_le hd1
  have hz2 : t.remaining_seconds -
      (t.accumulated + (now2 - t.last_tick)) / nanosPerSec = 0 :=
    Nat.sub_eq_zero_of_le hd2
  have e1 : t.tick now1 = Timer.transition_to_next_state
      { t with last_tick := now1,
               accumulated := (t.accumulated + (now1 - t.last_tick)) % nanosPerSec,
               remaining_seconds := 0 } := by
    rw [tick_unpaused_eq t now1 h1, if_neg hw, if_pos hz1]
  have e2 : t.tick now2 = Timer.transition_to_next_state
      { t with last_tick := now2,
               accumulated := (t.accumulated + (now2 - t.last_tick)) % nanosPerSec,
               remaining_seconds := 0 } := by
    rw [tick_unpaused_eq t now2 h1, if_neg hw, if_pos hz2]
  refine ⟨?_, ?_, ?_, ?_, ?_, ?_⟩
  · rw [e1, e2]
    exact transition_except _ _ rfl rfl rfl rfl rfl rfl rfl rfl rfl rfl rfl
  · rw [e1, transition_is_paused]
  · rw [e1, transition_accumulated]
  · rw [e1]
    exact transition_state_ne _
  · rw [e1]
    exact (transition_counters _).1
  · rw [e1]
    exact (transition_counters _).2

/-- Closed instance of tick_single_transition: a one-minute work phase
ticked once after 61 seconds and once after 100 seconds lands in the
same ShortBreak state with its full 60-second countdown, paused. -/
theorem tick_single_transition_witness :
    ((Timer.with_sessions 1 1 1 4 0).toggle_pause 0).tick 61000000000 =
      { ((Timer.with_sessions 1 1 1 4 0).toggle_pause 0).tick 100000000000 with
          last_tick := 61000000000 } ∧
    (((Timer.with_sessions 1 1 1 4 0).toggle_pause 0).tick 61000000000).is_paused =
      true ∧
    (((Timer.with_sessions 1 1 1 4 0).toggle_pause 0).tick 61000000000).state ≠
      ((Timer.with_sessions 1 1 1 4 0).toggle_pause 0).state := by
  have h := tick_single_transition ((Timer.with_sessions 1 1 1 4 0).toggle_pause 0)
    61000000000 100000000000 rfl (by decide) (by decide) (by decide)
  exact ⟨h.1, h.2.1, h.2.2.2.1⟩

/-- The wrapping u32 subtraction agrees with exact subtraction exactly
when it does not underflow and the minuend fits in 32 bits. -/
theorem u32wrapSub_eq (a b : Nat) (h : b ≤ a) (h2 : a < 4294967296) :
    u32wrapSub a b = a - b := by
  unfold u32wrapSub
  rw [Int.emod_eq_of_lt (by omega) (by omega)]
  omega

/-- C7 (amended): progress_percent is 0 in flowtime Work and when the
configured phase total is zero; whenever remaining_seconds does not
exceed the phase total (and the total fits in u32), it equals
((total - remaining) / total) * 100, in particular 0 at the instant a
phase starts and 100 the instant remaining_seconds reaches 0. -/
theorem progress_percent_spec_amended (t : Timer) :
    (t.is_flowtime = true ∧ t.state = TimerState.Work →
      t.progress_percent = 0) ∧
    (t.duration_for_state t.state * 60 = 0 → t.progress_percent = 0) ∧
    (¬(t.is_flowtime = true ∧ t.state = TimerState.Work) →
      t.remaining_seconds ≤ t.duration_for_state t.state * 60 →
      t.duration_for_state t.state * 60 < 4294967296 →
      t.progress_percent =
        ((t.duration_for_state t.state * 60 : ℚ) - (t.remaining_seconds : ℚ)) /
          (t.duration_for_state t.state * 60 : ℚ) * 100) ∧
    (¬(t.is_flowtime = true ∧ t.state = TimerState.Work) →
      t.remaining_seconds = t.duration_for_state t.state * 60 →
      t.progress_percent = 0) ∧
    (¬(t.is_flowtime = true ∧ t.state = TimerState.Work) →
      t.remaining_seconds = 0 →
      t.duration_for_state t.state * 60 ≠ 0 →
      t.duration_for_state t.state * 60 < 4294967296 →
      t.progress_percent = 100) := by
  refine ⟨?_, ?_, ?_, ?_, ?_⟩
  · intro hfw
    rw [Timer.progress_percent, if_pos hfw]
  · intro h0
    rw [Timer.progress_percent]
    split_ifs <;> simp_all
  · intro hfw hle hfit
    rw [Timer.progress_percent, if_neg hfw]
    by_cases h0 : t.duration_for_state t.state * 60 = 0
    · rw [if_pos h0]
      have hr0 : t.remaining_seconds = 0 := by omega
      have hq0 : ((t.duration_for_state t.state : ℚ)) * 60 = 0 := by
        exact_mod_cast h0
      rw [hq0, hr0]
      norm_num
    · rw [if_neg h0, u32wrapSub_eq _ _ hle hfit, Nat.cast_sub hle]
      push_cast
      ring
  · intro hfw heq
    rw [Timer.progress_percent, if_neg hfw]
    by_cases h0 : t.duration_for_state t.state * 60 = 0
    · rw [if_pos h0]
    · rw [if_neg h0, heq]
      have : u32wrapSub (t.duration_for_state t.state * 60)
          (t.duration_for_state t.state * 60) = 0 := by
        unfold u32wrapSub
        simp
      rw [this]
      norm_num
  · intro hfw hr0 h0 hfit
    rw [Timer.progress_percent, if_neg hfw, if_neg h0, hr0,
      u32wrapSub_eq _ _ (Nat.zero_le _) hfit]
    have hq : ((t.duration_for_state t.state * 60 : Nat) : ℚ) ≠ 0 := by
      exact_mod_cast h0
    rw [Nat.sub_zero, div_self hq, one_mul]

/-- Closed instance of progress_percent_spec_amended: a fresh classic
timer reads 0 percent, a flowtime Work timer reads 0 percent, and a
countdown that has reached 0 reads 100 percent. -/
theorem progress_percent_spec_amended_witness :
    (Timer.with_sessions 25 5 15 4 0).progress_percent = 0 ∧
    ((Timer.with_sessions 25 5 15 4 0).set_flowtime true).progress_percent = 0 ∧
    ({ Timer.with_sessions 1 1 1 4 0 with
        remaining_seconds := 0 } : Timer).progress_percent = 100 := by
  refine ⟨?_, ?_, ?_⟩
  · exact (progress_percent_spec_amended (Timer.with_sessions 25 5 15 4 0)).2.2.2.1
      (by decide) (by decide)
  · exact (progress_percent_spec_amended
      ((Timer.with_sessions 25 5 15 4 0).set_flowtime true)).1 (by decide)
  · exact (progress_percent_spec_amended
      { Timer.with_sessions 1 1 1 4 0 with remaining_seconds := 0 }).2.2.2.2
      (by decide) (by decide) (by decide) (by decide)

/-- C7 counterexample: after add_time(1) on a fresh classic timer the
countdown reads 1501 against a 1500-second phase total, and
progress_percent does not return ((total - remaining) / total) * 100 —
the u32 subtraction wraps instead of going negative. -/
theorem progress_percent_counterexample :
    ((Timer.with_sessions 25 5 15 4 0).add_time 1).is_flowtime = false ∧
    ((Timer.with_sessions 25 5 15 4 0).add_time 1).state = TimerState.Work ∧
    ((Timer.with_sessions 25 5 15 4 0).add_time 1).duration_for_state
      ((Timer.with_sessions 25 5 15 4 0).add_time 1).state * 60 = 1500 ∧
    ((Timer.with_sessions 25 5 15 4 0).add_time 1).remaining_seconds = 1501 ∧
    ((Timer.with_sessions 25 5 15 4 0).add_time 1).progress_percent ≠
      ((1500 : ℚ) - (1501 : ℚ)) / (1500 : ℚ) * 100 := by
  refine ⟨rfl, rfl, rfl, rfl, ?_⟩
  norm_num [Timer.progress_percent, Timer.with_sessions, Timer.add_time,
    Timer.duration_for_state, u32wrapSub, Int.toNat]

/-- C9: the state reached by add_time(1) from a fresh classic timer is a
reachable state in which the guard conditions of progress_percent lead to
the u32 subtraction with remaining_seconds strictly above the phase
total, where the unchecked subtraction underflows and wraps. -/
theorem progress_sub_underflow_reachable :
    Reachable ((Timer.with_sessions 25 5 15 4 0).add_time 1) ∧
    ((Timer.with_sessions 25 5 15 4 0).add_time 1).is_flowtime = false ∧
    ((Timer.with_sessions 25 5 15 4 0).add_time 1).state = TimerState.Work ∧
    ((Timer.with_sessions 25 5 15 4 0).add_time 1).duration_for_state
      ((Timer.with_sessions 25 5 15 4 0).add_time 1).state * 60 = 1500 ∧
    1500 < ((Timer.with_sessions 25 5 15 4 0).add_time 1).remaining_seconds ∧
    u32wrapSub 1500 1501 = 4294967295 ∧
    (u32wrapSub 1500 1501 : Int) ≠ (1500 : Int) - 1501 := by
  refine ⟨Reachable.add_time 1 (Reachable.init 25 5 15 4 0),
    rfl, rfl, rfl, by decide, by decide, by decide⟩

/-- The transition preserves the classic session-count invariant. -/
theorem invC4_transition (t : Timer) (h : InvC4 t) :
    InvC4 t.transition_to_next_state := by
  obtain ⟨hfl, hn, hc1, hc2, hsb⟩ := h
  obtain ⟨st, rem, el, p, wd, sbd, lbd, n, c, lt, acc, fl, fb⟩ := t
  simp only at hfl hn hc1 hc2 hsb
  subst hfl
  cases st <;>
    simp_all [InvC4, Timer.transition_to_next_state] <;>
    first
    | omega
    | (split_ifs <;> simp_all)

/-- A tick preserves the classic session-count invariant. -/
theorem invC4_tick (t : Timer) (now : Nat) (h : InvC4 t) :
    InvC4 (t.tick now) := by
  by_cases hp : t.is_paused = true
  · rw [tick_paused t hp now]
    exact h
  · have hp' : t.is_paused = false := by
      simpa using hp
    rw [tick_unpaused_eq t now hp']
    split_ifs with h1 h2
    · exact h
    · exact invC4_transition _ h
    · exact h

/-- Every state reachable in classic operation satisfies the
session-count invariant. -/
theorem reachableClassic_inv (t : Timer) (h : ReachableClassic t) :
    InvC4 t := by
  induction h with
  | init w s l n now hn =>
    refine ⟨rfl, hn, le_refl 1, hn, ?_⟩
    intro hst
    exact TimerState.noConfusion hst
  | tick now h ih => exact invC4_tick _ now ih
  | toggle_pause now h ih =>
    simp only [Timer.toggle_pause]
    split_ifs <;> exact ih
  | reset h ih =>
    simp only [Timer.reset]
    split_ifs <;> exact ih
  | full_reset h ih =>
    exact ⟨ih.1, ih.2.1, le_refl 1, ih.2.1,
      fun hst => TimerState.noConfusion hst⟩
  | skip h ih =>
    rw [Timer.skip, if_neg]
    · exact invC4_transition _ ih
    · intro hc
      rw [ih.1] at hc
      exact Bool.false_ne_true hc.1
  | end_work h ih =>
    rw [Timer.end_work, if_pos]
    · exact ih
    · intro hc
      rw [ih.1] at hc
      exact Bool.false_ne_true hc.1
  | add_time s h ih => exact ih
  | set_flowtime_off h ih =>
    simp only [Timer.set_flowtime]
    split_ifs <;>
      exact ⟨rfl, ih.2.1, ih.2.2.1, ih.2.2.2.1, ih.2.2.2.2⟩

/-- C4 counterexample: the claimed interval fails in two reachable
states — construction with cycle length 0 starts at session_count 1,
outside [1, 0]; and a flowtime end_work that lands in ShortBreak at the
cycle length, followed by disabling flowtime and skipping, drives
session_count to 3 with cycle length 2. -/
theorem session_count_bounds_counterexample :
    (Reachable (Timer.with_sessions 25 5 15 0 0) ∧
      (Timer.with_sessions 25 5 15 0 0).sessions_until_long_break = 0 ∧
      (Timer.with_sessions 25 5 15 0 0).session_count = 1) ∧
    (Reachable
        ((((((Timer.with_sessions 25 5 15 2 0).set_flowtime
          true).end_work).skip).end_work).set_flowtime false).skip ∧
      ((((((Timer.with_sessions 25 5 15 2 0).set_flowtime
        true).end_work).skip).end_work).set_flowtime false).skip.sessions_until_long_break = 2 ∧
      ((((((Timer.with_sessions 25 5 15 2 0).set_flowtime
        true).end_work).skip).end_work).set_flowtime false).skip.session_count = 3) := by
  refine ⟨⟨Reachable.init 25 5 15 0 0, rfl, rfl⟩, ?_, by decide, by decide⟩
  exact Reachable.skip (Reachable.set_flowtime false (Reachable.end_work
    (Reachable.skip (Reachable.end_work (Reachable.set_flowtime true
      (Reachable.init 25 5 15 2 0))))))

/-- C4 (amended): for engines constructed with a positive cycle length
and operated without ever enabling flowtime, session_count stays in
[1, sessions_until_long_break]; and in general session_count is
incremented only by ShortBreak-to-Work transitions, reset to 1 only by
LongBreak-to-Work transitions and by full_reset, and untouched by every
other operation. -/
theorem session_count_bounds_amended :
    (∀ t : Timer, ReachableClassic t →
      1 ≤ t.session_count ∧
      t.session_count ≤ t.sessions_until_long_break) ∧
    (∀ (t : Timer) (now s : Nat) (b : Bool),
      (t.toggle_pause now).session_count = t.session_count ∧
      t.reset.session_count = t.session_count ∧
      (t.add_time s).session_count = t.session_count ∧
      (t.set_flowtime b).session_count = t.session_count ∧
      t.end_work.session_count = t.session_count ∧
      t.full_reset.session_count = 1 ∧
      (t.state = TimerState.Work →
        t.transition_to_next_state.session_count = t.session_count) ∧
      (t.state = TimerState.ShortBreak →
        t.transition_to_next_state.session_count = t.session_count + 1) ∧
      (t.state = TimerState.LongBreak →
        t.transition_to_next_state.session_count = 1)) := by
  constructor
  · intro t h
    have hi := reachableClassic_inv t h
    exact ⟨hi.2.2.1, hi.2.2.2.1⟩
  · intro t now s b
    obtain ⟨st, rem, el, p, wd, sbd, lbd, n, c, lt, acc, fl, fb⟩ := t
    refine ⟨?_, ?_, rfl, ?_, ?_, rfl, ?_, ?_, ?_⟩
    · simp only [Timer.toggle_pause]
      split_ifs <;> rfl
    · simp only [Timer.reset]
      split_ifs <;> rfl
    · simp only [Timer.set_flowtime]
      split_ifs <;> rfl
    · simp only [Timer.end_work]
      split_ifs <;> rfl
    · intro hst
      simp only at hst
      subst hst
      simp only [Timer.transition_to_next_state]
      split_ifs <;> rfl
    · intro hst
      simp only at hst
      subst hst
      simp only [Timer.transition_to_next_state]
      split_ifs <;> rfl
    · intro hst
      simp only at hst
      subst hst
      simp only [Timer.transition_to_next_state]
      split_ifs <;> rfl

/-- Closed instance of session_count_bounds_amended: a fresh classic
timer with cycle length 4 has its session count inside [1, 4]. -/
theorem session_count_bounds_amended_witness :
    1 ≤ (Timer.with_sessions 25 5 15 4 0).session_count ∧
    (Timer.with_sessions 25 5 15 4 0).session_count ≤
      (Timer.with_sessions 25 5 15 4 0).sessions_until_long_break :=
  session_count_bounds_amended.1 (Timer.with_sessions 25 5 15 4 0)
    (ReachableClassic.init 25 5 15 4 0 (by decide))

end Sandoro
